import Mathlib

/-!
Shallow embedding of the hazardous-asteroid pipeline in `src/data/neo.py`.

The source consists of:
  * `impact_energy_joules` / `energy_to_magnitude` (pure physics, lines 16-26),
  * `get_earthquake_examples` (widening magnitude-window search against the
    USGS earthquake catalog, lines 40-79),
  * `process_asteroid` (per-asteroid extraction, lines 81-135), and
  * `fetch_hazardous_neos` (pagination driver, lines 28-38).

External HTTP collaborators are modelled as functions from the request
parameters the code actually varies to an abstract outcome; a Python-level
exception from `requests.get` / `raise_for_status` / `math.log10` is modelled
as an explicit error value that propagates.  Python floats are modelled as
`ℚ` for raw-record data and `ℝ` where the code computes with `math.pi` and
`math.log10`.  The module-level accumulator list `hazardous_data` is threaded
through explicitly as a return value, and the number of HTTP requests issued
is recorded alongside each result so that the pagination / retry claims can
be stated.
-/

namespace Neo

/-- Earth mean radius constant, line 9 of the source. -/
def EARTH_RADIUS_KM : ℚ := 6371

/-- One GeoJSON feature as consumed by `get_earthquake_examples`
(lines 64-71): the code reads `properties.place`, `properties.mag` and
`properties.time`; `mag` and `time` may be JSON null. -/
structure Feature where
  place : String
  mag : Option ℚ
  time : Option ℤ
deriving DecidableEq

/-- One entry of the list returned by `get_earthquake_examples`:
a dict with keys `place`, `mag`, `time` (lines 64-71 and 77). -/
structure EqExample where
  place : String
  mag : Option ℚ
  time : Option ℤ
deriving DecidableEq

/-- Line 65-71: the dict built from one feature (place, mag, time only). -/
def featureToExample (f : Feature) : EqExample :=
  ⟨f.place, f.mag, f.time⟩

/-- Line 77: the sentinel entry returned when no window yields events. -/
def noMatchSentinel : EqExample :=
  ⟨"No matching earthquakes found", none, none⟩

/-- Outcome of one `requests.get` against the earthquake catalog
(line 60): either a response with a status code and a `features` list,
or a raised exception (connection error / timeout). -/
inductive QueryResult where
  | resp (status : ℕ) (features : List Feature)
  | raised
deriving DecidableEq

/-- The earthquake catalog as a function of the parameters the code varies:
`minmagnitude`, `maxmagnitude` and `limit` (lines 43-59; `format` and
`orderby` are constant). -/
def SeismicCatalog (α : Type) : Type :=
  α → α → ℕ → QueryResult

/-- Result of a run of `get_earthquake_examples`: the returned list (or a
propagated transport exception), instrumented with the number of catalog
queries issued. -/
structure GeqResult where
  result : Except Unit (List EqExample)
  queries : ℕ

/-- The `while current_delta <= max_delta and not results` loop of
lines 54-73, recursing on a fuel argument.  Each iteration queries the
window `[mag - delta, mag + delta]` with `limit = 3`; a 200 response with a
nonempty feature list stops the loop (lines 61-72), any other response
falls through to `current_delta += step` (line 73), and a raised exception
propagates.  Fuel 0 is only reachable when the caller supplies insufficient
fuel; `get_earthquake_examples` computes fuel that provably outlasts the
loop, so there the branch coincides with the `delta > max_delta` exit
(both return the sentinel of line 77). -/
def geqLoop {α : Type} [LinearOrderedField α] (q : SeismicCatalog α)
    (mag step maxDelta : α) : α → ℕ → GeqResult
  | delta, fuel =>
    if delta ≤ maxDelta then
      match fuel with
      | 0 => ⟨Except.ok [noMatchSentinel], 0⟩
      | fuel' + 1 =>
        match q (mag - delta) (mag + delta) 3 with
        | QueryResult.raised => ⟨Except.error (), 1⟩
        | QueryResult.resp status features =>
          if status = 200 ∧ features ≠ [] then
            ⟨Except.ok (features.map featureToExample), 1⟩
          else
            let r := geqLoop q mag step maxDelta (delta + step) fuel'
            ⟨r.result, r.queries + 1⟩
    else ⟨Except.ok [noMatchSentinel], 0⟩

/-- Lines 40-79, `get_earthquake_examples(mag, delta=0.3, max_delta=2.0)`.
`step` is hardcoded to `0.3` (line 50).  The fuel
`(⌊(max_delta - delta) / step⌋ + 1).toNat` strictly exceeds the number of
loop iterations, so the fuel-exhaustion branch of `geqLoop` is never
taken. -/
def get_earthquake_examples {α : Type} [LinearOrderedField α] [FloorRing α]
    (q : SeismicCatalog α) (mag delta maxDelta : α) : GeqResult :=
  geqLoop q mag (3/10) maxDelta delta
    ((Int.floor ((maxDelta - delta) / (3/10 : α)) + 1).toNat)

/-- Lines 16-22, `impact_energy_joules(diameter_m, velocity_km_s, density=3000)`:
`radius = diameter_m / 2`, `v = velocity_km_s * 1000`,
`mass = (4/3) * math.pi * radius ** 3 * density`, `energy = 0.5 * mass * v ** 2`.
The density default `3000` is supplied explicitly at the call site. -/
noncomputable def impact_energy_joules (diameter_m velocity_km_s density : ℝ) : ℝ :=
  let radius := diameter_m / 2
  let v := velocity_km_s * 1000
  let mass := (4/3) * Real.pi * radius ^ 3 * density
  0.5 * mass * v ^ 2

/-- Lines 24-26, `energy_to_magnitude(energy_joules)`:
`0.67 * math.log10(energy_joules) - 5.87`.  `math.log10` raises a
`ValueError` (math domain error) exactly when its argument is `≤ 0`;
that exception is modelled as `Except.error`. -/
noncomputable def energy_to_magnitude (energy_joules : ℝ) : Except Unit ℝ :=
  if 0 < energy_joules then
    Except.ok (0.67 * Real.logb 10 energy_joules - 5.87)
  else
    Except.error ()

/-- One entry of `close_approach_data` as consumed by lines 98-103:
`close_approach_date` via `.get` (may be absent), `miss_distance.kilometers`
and `relative_velocity.kilometers_per_second` via direct indexing. -/
structure CloseApproach where
  close_approach_date : Option String
  miss_distance_km : ℚ
  velocity_km_s : ℚ
deriving DecidableEq

/-- The `orbital_data` dict as consumed by lines 88-95: every numeric field
is read with `.get(key, 0)` (so may be absent), `epoch_osculation` with a
plain `.get` (absent becomes `None`).  A record with no `orbital_data` at
all (line 88's `.get("orbital_data", \x7b\x7d)`) is modelled by all fields
`none`. -/
structure OrbitalData where
  semi_major_axis : Option ℚ
  eccentricity : Option ℚ
  inclination : Option ℚ
  ascending_node_longitude : Option ℚ
  perihelion_argument : Option ℚ
  mean_anomaly : Option ℚ
  epoch_osculation : Option String
deriving DecidableEq

/-- One raw NEO record as consumed by `fetch_hazardous_neos` /
`process_asteroid`.  `name`, `id` and the diameter are direct-indexed
(lines 83-85), hence mandatory; the hazard flag is read with
`.get(..., False)` (line 37). -/
structure RawNeo where
  name : String
  id : String
  estimated_diameter_max : ℚ
  orbital_data : OrbitalData
  close_approach_data : List CloseApproach
  is_potentially_hazardous_asteroid : Bool
deriving DecidableEq

/-- The dict appended to `hazardous_data` at lines 117-135. -/
structure HazardousAsteroidRecord where
  name : String
  id : String
  diameter_m : ℚ
  a_AU : ℚ
  e : ℚ
  i_deg : ℚ
  raan_deg : ℚ
  argp_deg : ℚ
  M_deg : ℚ
  epoch : Option String
  close_approach_date : Option String
  miss_distance_km : Option ℚ
  velocity_km_s : Option ℚ
  potential_impact : Bool
  impact_energy_J : Option ℝ
  impact_magnitude_Mw : Option ℝ
  earthquake_examples : Option (List EqExample)

/-- An exception escaping `process_asteroid`: the math domain error from
`energy_to_magnitude` (line 26 via line 112), or a transport exception
from `requests.get` inside `get_earthquake_examples` (line 60 via
line 113). -/
inductive PError where
  | domain
  | net
deriving DecidableEq

/-- Lines 110-115 of `process_asteroid`: the energy / magnitude /
earthquake-example triple.  The guard at line 110 is Python truthiness:
`if velocity and diameter` succeeds iff `velocity` is a non-`None`,
nonzero float and `diameter` is nonzero.  When it succeeds the code
computes `E`, `Mw` (which may raise the math domain error) and the
earthquake examples (which may propagate a transport exception);
otherwise all three stay `None`. -/
noncomputable def derivedTriple (q : SeismicCatalog ℝ) (neo : RawNeo) :
    Except PError (Option ℝ × Option ℝ × Option (List EqExample)) :=
  let diameter := neo.estimated_diameter_max
  let velocity : Option ℚ :=
    (neo.close_approach_data.head?).map (fun c => c.velocity_km_s)
  match velocity with
  | some v =>
    if v ≠ 0 ∧ diameter ≠ 0 then
      let E := impact_energy_joules (diameter : ℝ) (v : ℝ) 3000
      match energy_to_magnitude E with
      | Except.error _ => Except.error PError.domain
      | Except.ok mw =>
        match (get_earthquake_examples q mw (3/10) 2).result with
        | Except.error _ => Except.error PError.net
        | Except.ok exs => Except.ok (some E, some mw, some exs)
    else Except.ok (none, none, none)
  | none => Except.ok (none, none, none)

/-- Lines 83-108 and 117-135 of `process_asteroid`: the extracted fields
and the dict appended to `hazardous_data`, given the already-computed
energy/magnitude/examples triple.  Every orbital field missing from
`orbital_data` defaults to `0` (lines 89-94); with no close-approach entry
the date / miss distance / velocity are `None` and `potential_impact` is
`False` (lines 104-108). -/
def mkRecord (neo : RawNeo) (E mw : Option ℝ) (exs : Option (List EqExample)) :
    HazardousAsteroidRecord :=
  let orb := neo.orbital_data
  let approach := neo.close_approach_data.head?
  let miss_km : Option ℚ := approach.map (fun c => c.miss_distance_km)
  ⟨neo.name, neo.id, neo.estimated_diameter_max,
   orb.semi_major_axis.getD 0, orb.eccentricity.getD 0,
   orb.inclination.getD 0, orb.ascending_node_longitude.getD 0,
   orb.perihelion_argument.getD 0, orb.mean_anomaly.getD 0,
   orb.epoch_osculation,
   approach.bind (fun c => c.close_approach_date),
   miss_km,
   approach.map (fun c => c.velocity_km_s),
   (match miss_km with
    | some m => decide (m ≤ EARTH_RADIUS_KM)
    | none => false),
   E, mw, exs⟩

/-- Lines 81-135, `process_asteroid(neo)`.  The append to the global
`hazardous_data` is modelled by returning the appended record; a raised
exception (math domain error, or a transport exception escaping
`get_earthquake_examples`) is modelled as `Except.error`. -/
noncomputable def process_asteroid (q : SeismicCatalog ℝ) (neo : RawNeo) :
    Except PError HazardousAsteroidRecord :=
  match derivedTriple q neo with
  | Except.error err => Except.error err
  | Except.ok (E, mw, exs) => Except.ok (mkRecord neo E mw exs)

/-- Outcome of one `requests.get` + `raise_for_status` against the NEO
browse endpoint (lines 32-33): a successful page (whose JSON carries the
records list and the page metadata `page.number` / `page.total_pages`,
which the code never reads), or a raised exception (non-2xx status or
network error). -/
inductive PageResult where
  | ok (neos : List RawNeo) (number : ℕ) (total_pages : ℕ)
  | failure
deriving DecidableEq

/-- The NEO browse catalog as a function of the page index (the only
request parameter the code varies, line 31). -/
def NeoCatalog : Type :=
  ℕ → PageResult

/-- How a run of `fetch_hazardous_neos` ended: all requested pages
processed, an exception from `raise_for_status` on page `k`, or an
exception escaping `process_asteroid`. -/
inductive FetchStop where
  | done
  | pageFailure (k : ℕ)
  | procFailure (e : PError)

/-- The inner loop of lines 36-38: run `process_asteroid` on every record
whose hazard flag is true, in page order, accumulating the appended
records; an exception from `process_asteroid` stops the traversal, keeping
the records appended so far (the Python global survives the raise). -/
noncomputable def processNeos (q : SeismicCatalog ℝ) :
    List RawNeo → List HazardousAsteroidRecord × Option PError
  | [] => ([], none)
  | neo :: rest =>
    if neo.is_potentially_hazardous_asteroid then
      match process_asteroid q neo with
      | Except.ok r =>
        let t := processNeos q rest
        (r :: t.1, t.2)
      | Except.error err => ([], some err)
    else processNeos q rest

/-- Result of a run of `fetch_hazardous_neos`: the final contents of the
`hazardous_data` accumulator, how the run ended, and the number of NEO
page fetches issued. -/
structure FetchResult where
  records : List HazardousAsteroidRecord
  stop : FetchStop
  fetches : ℕ

/-- The `for page in range(pages)` loop of lines 30-38, recursing on the
number of pages still allowed, starting at page index `pageIdx`.  Note the
loop consults only the range bound: the page metadata in the response is
ignored. -/
noncomputable def fetchAux (cat : NeoCatalog) (q : SeismicCatalog ℝ)
    (pageIdx : ℕ) : ℕ → FetchResult
  | 0 => ⟨[], FetchStop.done, 0⟩
  | n + 1 =>
    match cat pageIdx with
    | PageResult.failure => ⟨[], FetchStop.pageFailure pageIdx, 1⟩
    | PageResult.ok neos _ _ =>
      match processNeos q neos with
      | (l, some err) => ⟨l, FetchStop.procFailure err, 1⟩
      | (l, none) =>
        let rest := fetchAux cat q (pageIdx + 1) n
        ⟨l ++ rest.records, rest.stop, rest.fetches + 1⟩

/-- Lines 28-38, `fetch_hazardous_neos(pages=1)`. -/
noncomputable def fetch_hazardous_neos (cat : NeoCatalog) (q : SeismicCatalog ℝ)
    (pages : ℕ) : FetchResult :=
  fetchAux cat q 0 pages

/-- The hazardous records contributed by page `i` of the catalog (empty
when the fetch of page `i` fails). -/
noncomputable def pageRecords (q : SeismicCatalog ℝ) (cat : NeoCatalog) (i : ℕ) :
    List HazardousAsteroidRecord :=
  match cat i with
  | PageResult.ok neos _ _ => (processNeos q neos).1
  | PageResult.failure => []

/-- A single earthquake feature used as concrete test data. -/
def f0 : Feature := ⟨"Offshore X", some 5, some 0⟩

/-- A seismic catalog that answers every query with status 200 and `f0`,
truncated to the requested `limit` (so the interface contract
`|features| ≤ limit` holds). -/
def qHit : SeismicCatalog ℚ := fun _ _ n => QueryResult.resp 200 (List.take n [f0])

/-- A seismic catalog that answers every query with status 200 and zero
events. -/
def qEmpty : SeismicCatalog ℚ := fun _ _ _ => QueryResult.resp 200 []

/-- A seismic catalog whose first window (its lower bound is `5 - 0.3 =
47/10`) raises a transport exception, while every other window returns
`f0`. -/
def qRaiseFirst : SeismicCatalog ℚ := fun a _ _ =>
  if a = 47/10 then QueryResult.raised else QueryResult.resp 200 [f0]

/-- Like `qRaiseFirst`, but the first window yields a non-success (404)
response instead of a raised exception. -/
def qHttpFirst : SeismicCatalog ℚ := fun a _ _ =>
  if a = 47/10 then QueryResult.resp 404 [] else QueryResult.resp 200 [f0]

/-- The Python truthiness guard of line 110 (`if velocity and diameter:`)
as a proposition: some close-approach entry exists, its velocity is
nonzero, and the diameter is nonzero. -/
def energyGuard (neo : RawNeo) : Prop :=
  (∃ c, neo.close_approach_data.head? = some c ∧ c.velocity_km_s ≠ 0)
  ∧ neo.estimated_diameter_max ≠ 0

/-- Empty `orbital_data` dict (every consumed key absent). -/
def allNoneOrb : OrbitalData := ⟨none, none, none, none, none, none, none⟩

/-- A seismic catalog over ℝ answering every query with 200 and no
events. -/
def trivialQ : SeismicCatalog ℝ := fun _ _ _ => QueryResult.resp 200 []

/-- A raw record with a negative reported diameter and a close approach
with nonzero velocity: the truthiness guard of line 110 accepts it. -/
def neoNegDiameter : RawNeo :=
  ⟨"NegDiam A", "1001", -1, allNoneOrb, [⟨some "2029-04-13", 1000, 1⟩], true⟩

/-- A second raw record with a negative diameter. -/
def neoNegDiameter2 : RawNeo :=
  ⟨"NegDiam B", "1002", -2, allNoneOrb, [⟨none, 500, 3⟩], true⟩

/-- Miss distance exactly on the Earth-radius boundary; velocity 0 keeps
the energy path off. -/
def neoMiss6371 : RawNeo :=
  ⟨"Boundary", "1003", 50, allNoneOrb, [⟨none, 6371, 0⟩], true⟩

/-- Miss distance 6371.01 km, just above the boundary. -/
def neoMissOver : RawNeo :=
  ⟨"OverBoundary", "1004", 50, allNoneOrb, [⟨none, 637101/100, 0⟩], true⟩

/-- A raw record with no close-approach entries at all. -/
def neoNoApproach : RawNeo :=
  ⟨"NoApproach", "1005", 50, allNoneOrb, [], true⟩

/-- The hazardous records extracted from the `k` consecutive pages
`start, start + 1, …, start + k - 1`, in encounter order. -/
noncomputable def pagesRecords (q : SeismicCatalog ℝ) (cat : NeoCatalog)
    (start : ℕ) : ℕ → List HazardousAsteroidRecord
  | 0 => []
  | k + 1 => pageRecords q cat start ++ pagesRecords q cat (start + 1) k

/-- A page fetch succeeds and every hazardous record on it processes
without an exception. -/
def pageOk (q : SeismicCatalog ℝ) (cat : NeoCatalog) (i : ℕ) : Prop :=
  ∃ ns p t, cat i = PageResult.ok ns p t ∧ (processNeos q ns).2 = none

/-- A 2-page catalog: page 0 succeeds with no records, every later page
fails. -/
def catFail : NeoCatalog := fun i =>
  if i = 0 then PageResult.ok [] 0 5 else PageResult.failure

/-- A catalog that reports `total_pages = 2` on every page (in particular
on pages 0 and 1) and responds successfully, with no records, to every
page request - including page 2. -/
def cat2 : NeoCatalog := fun i => PageResult.ok [] i 2


/-- A query outcome that responded (no exception) but does not stop the
widening loop: a non-200 status or an empty feature list (lines 61-63). -/
def notHit : QueryResult → Prop
  | QueryResult.resp s fs => s ≠ 200 ∨ fs = []
  | QueryResult.raised => False

lemma geqLoop_queries_le {α : Type} [LinearOrderedField α] (q : SeismicCatalog α)
    (mag step maxDelta : α) :
    ∀ (fuel : ℕ) (delta : α), (geqLoop q mag step maxDelta delta fuel).queries ≤ fuel := by
  intro fuel
  induction fuel with
  | zero =>
    intro delta
    rw [geqLoop]
    split <;> exact Nat.le_refl 0
  | succ n ih =>
    intro delta
    rw [geqLoop]
    split
    · cases hq : q (mag - delta) (mag + delta) 3 with
      | raised => simp [hq]
      | resp s fs =>
        simp only [hq]
        split
        · exact Nat.succ_le_succ (Nat.zero_le n)
        · exact Nat.succ_le_succ (ih (delta + step))
    · exact Nat.zero_le (n + 1)

lemma geqLoop_firstHit {α : Type} [LinearOrderedField α] (q : SeismicCatalog α)
    (mag step maxDelta : α) :
    ∀ (k : ℕ) (delta : α) (fuel : ℕ), k < fuel →
      (∀ j : ℕ, j < k →
        notHit (q (mag - (delta + j * step)) (mag + (delta + j * step)) 3)) →
      delta + k * step ≤ maxDelta → 0 < step →
      ∀ fs : List Feature,
        q (mag - (delta + k * step)) (mag + (delta + k * step)) 3 =
          QueryResult.resp 200 fs →
        fs ≠ [] →
        geqLoop q mag step maxDelta delta fuel =
          ⟨Except.ok (fs.map featureToExample), k + 1⟩ := by
  intro k
  induction k with
  | zero =>
    intro delta fuel hfuel hmiss hle hstep fs hq hfs
    obtain ⟨f', rfl⟩ : ∃ f', fuel = f' + 1 := ⟨fuel - 1, by omega⟩
    have hle' : delta ≤ maxDelta := by simpa using hle
    have hq' : q (mag - delta) (mag + delta) 3 = QueryResult.resp 200 fs := by
      simpa using hq
    rw [geqLoop, if_pos hle']
    simp only [hq']
    simp [hfs]
  | succ k ih =>
    intro delta fuel hfuel hmiss hle hstep fs hq hfs
    obtain ⟨f', rfl⟩ : ∃ f', fuel = f' + 1 := ⟨fuel - 1, by omega⟩
    have harith : ∀ j : ℕ, delta + ((j : ℕ) + 1 : ℕ) * step = delta + step + j * step := by
      intro j
      push_cast
      ring
    have hcast : delta + ((k : α) + 1) * step = delta + step + k * step := by ring
    have hle1 : delta + step + (k : α) * step ≤ maxDelta := by
      have : delta + ((k : ℕ) + 1 : ℕ) * step ≤ maxDelta := by
        simpa using hle
      rwa [harith k] at this
    have hle0 : delta ≤ maxDelta := by
      have hk0 : (0 : α) ≤ (k : α) * step := by positivity
      nlinarith
    have h0 := hmiss 0 (Nat.succ_pos k)
    simp only [Nat.cast_zero, zero_mul, add_zero] at h0
    rw [geqLoop, if_pos hle0]
    cases hq0 : q (mag - delta) (mag + delta) 3 with
    | raised =>
      rw [hq0] at h0
      exact absurd h0 (by simp [notHit])
    | resp s fs0 =>
      rw [hq0] at h0
      simp only [notHit] at h0
      simp only [hq0]
      rw [if_neg (by tauto)]
      have hrec := ih (delta + step) f' (by omega)
        (fun j hj => by
          have := hmiss (j + 1) (by omega)
          rwa [harith j] at this)
        hle1 hstep fs
        (by
          have := hq
          rwa [harith k] at this)
        hfs
      rw [hrec]

lemma geqLoop_raised {α : Type} [LinearOrderedField α] (q : SeismicCatalog α)
    (mag step maxDelta delta : α) (fuel : ℕ) (hfuel : 0 < fuel)
    (hle : delta ≤ maxDelta)
    (hq : q (mag - delta) (mag + delta) 3 = QueryResult.raised) :
    geqLoop q mag step maxDelta delta fuel = ⟨Except.error (), 1⟩ := by
  obtain ⟨f', rfl⟩ : ∃ f', fuel = f' + 1 := ⟨fuel - 1, by omega⟩
  rw [geqLoop, if_pos hle]
  simp only [hq]

lemma geqLoop_sentinel {α : Type} [LinearOrderedField α] (q : SeismicCatalog α)
    (mag step maxDelta delta0 : α) (hstep : 0 ≤ step)
    (h : ∀ d : α, delta0 ≤ d → d ≤ maxDelta →
      q (mag - d) (mag + d) 3 = QueryResult.resp 200 []) :
    ∀ (fuel : ℕ) (delta : α), delta0 ≤ delta →
      (geqLoop q mag step maxDelta delta fuel).result = Except.ok [noMatchSentinel] := by
  intro fuel
  induction fuel with
  | zero =>
    intro delta hd
    rw [geqLoop]
    split <;> rfl
  | succ n ih =>
    intro delta hd
    rw [geqLoop]
    split
    · next hle =>
      have hq := h delta hd hle
      simp only [hq]
      rw [if_neg (by simp)]
      exact ih (delta + step) (by linarith)
    · rfl

/-- The fuel supplied by `get_earthquake_examples` outlasts every iteration
the `while` loop can reach: if the delta of iteration `k` is still within
`max_delta`, then `k` is below the fuel. -/
lemma fuel_sufficient {α : Type} [LinearOrderedField α] [FloorRing α]
    (delta maxDelta : α) (k : ℕ) (h : delta + k * (3/10 : α) ≤ maxDelta) :
    k < (Int.floor ((maxDelta - delta) / (3/10 : α)) + 1).toNat := by
  have h30 : (0 : α) < 3/10 := by norm_num
  have hk : (k : α) ≤ (maxDelta - delta) / (3/10 : α) := by
    rw [le_div_iff₀ h30]
    linarith
  have hfloor : (k : ℤ) ≤ Int.floor ((maxDelta - delta) / (3/10 : α)) := by
    rwa [Int.le_floor, Int.cast_natCast]
  exact Int.lt_toNat.mpr (by omega)

lemma impact_energy_joules_eq (d v ρ : ℝ) :
    impact_energy_joules d v ρ = 250000 / 3 * Real.pi * d ^ 3 * ρ * v ^ 2 := by
  simp only [impact_energy_joules]
  ring

/-- C2: `get_earthquake_examples` issues queries with the symmetric windows
`[mag - d, mag + d]` for `d = delta, delta + 0.3, delta + 2·0.3, …` while
`d ≤ max_delta`; it stops at the first window whose query succeeds (status
200) with at least one event, returning those events' place/mag/time
fields in catalog order after exactly `k + 1` queries (so exactly one
query when the first window already has an event), with at most 3 entries
whenever the catalog honours the `limit = 3` parameter; and in every case
the number of queries issued is at most `⌊(max_delta - delta)/0.3⌋ + 1`. -/
theorem claim_C2 {α : Type} [LinearOrderedField α] [FloorRing α]
    (q : SeismicCatalog α) (mag delta maxDelta : α)
    (hlimit : ∀ (a b : α) (n : ℕ) (s : ℕ) (fs : List Feature),
      q a b n = QueryResult.resp s fs → fs.length ≤ n) :
    (∀ (k : ℕ) (fs : List Feature),
        (∀ j : ℕ, j < k →
          notHit (q (mag - (delta + j * (3/10 : α))) (mag + (delta + j * (3/10 : α))) 3)) →
        delta + k * (3/10 : α) ≤ maxDelta →
        q (mag - (delta + k * (3/10 : α))) (mag + (delta + k * (3/10 : α))) 3 =
          QueryResult.resp 200 fs →
        fs ≠ [] →
        get_earthquake_examples q mag delta maxDelta =
          ⟨Except.ok (fs.map featureToExample), k + 1⟩ ∧ fs.length ≤ 3)
    ∧ (get_earthquake_examples q mag delta maxDelta).queries ≤
        (Int.floor ((maxDelta - delta) / (3/10 : α)) + 1).toNat := by
  constructor
  · intro k fs hmiss hle hq hfs
    refine ⟨?_, hlimit _ _ _ _ _ hq⟩
    exact geqLoop_firstHit q mag (3/10) maxDelta k delta _
      (fuel_sufficient delta maxDelta k hle) hmiss hle (by norm_num) fs hq hfs
  · exact geqLoop_queries_le q mag (3/10) maxDelta _ delta

/-- Witness for C2: a catalog that has an event in the very first window
issues exactly one query and returns that single mapped event. -/
theorem claim_C2_witness :
    get_earthquake_examples qHit (5 : ℚ) (3/10) 2 =
      ⟨Except.ok ([f0].map featureToExample), 0 + 1⟩ ∧ ([f0] : List Feature).length ≤ 3 :=
  (claim_C2 qHit 5 (3/10) 2
      (by
        intro a b n s fs h
        cases h
        exact List.length_take_le n [f0])).1
    0 [f0]
    (by intro j hj; exact absurd hj (Nat.not_lt_zero j))
    (by push_cast; norm_num)
    (by norm_num [qHit])
    (by simp)

/-- C3: if every window the loop can reach (every delta between the
initial delta and `max_delta`) yields a successful response with zero
events, `get_earthquake_examples` returns the one-element sentinel list
("No matching earthquakes found", null, null) as a successful
(non-`error`) result. -/
theorem claim_C3 {α : Type} [LinearOrderedField α] [FloorRing α]
    (q : SeismicCatalog α) (mag delta maxDelta : α)
    (h : ∀ d : α, delta ≤ d → d ≤ maxDelta →
      q (mag - d) (mag + d) 3 = QueryResult.resp 200 []) :
    (get_earthquake_examples q mag delta maxDelta).result =
      Except.ok [noMatchSentinel] :=
  geqLoop_sentinel q mag (3/10) maxDelta delta (by norm_num) h _ delta le_rfl

/-- Witness for C3: the always-empty catalog produces exactly the sentinel. -/
theorem claim_C3_witness :
    (get_earthquake_examples qEmpty (5 : ℚ) (3/10) 2).result =
      Except.ok [noMatchSentinel] :=
  claim_C3 qEmpty 5 (3/10) 2 (fun _ _ _ => rfl)

/-- C10 as stated is false: a raised transport exception on an individual
seismic query is NOT treated like zero events in that window.  With
`qRaiseFirst` the first window's request raises and the whole search
aborts with the propagated exception (an `error` result after one query),
even though the very next window has a matching event; with `qHttpFirst`,
identical except that the first window returns a non-success response
instead of raising, the search does proceed and succeeds. -/
theorem claim_C10_counterexample :
    (get_earthquake_examples qRaiseFirst (5 : ℚ) (3/10) 2).result = Except.error ()
    ∧ (get_earthquake_examples qRaiseFirst (5 : ℚ) (3/10) 2).queries = 1
    ∧ (get_earthquake_examples qHttpFirst (5 : ℚ) (3/10) 2).result =
        Except.ok [featureToExample f0] := by
  refine ⟨?_, ?_, ?_⟩
  · norm_num [get_earthquake_examples, Int.floor_eq_iff]
    norm_num [geqLoop, qRaiseFirst]
  · norm_num [get_earthquake_examples, Int.floor_eq_iff]
    norm_num [geqLoop, qRaiseFirst]
  · norm_num [get_earthquake_examples, Int.floor_eq_iff]
    norm_num [geqLoop, qHttpFirst]

/-- C10 amended: a non-success (status ≠ 200) response on an individual
query does not abort the widening search - it is treated the same as zero
events in that window and the loop proceeds to the next delta (here: the
next window's events are returned after two queries); a transport
exception raised by the HTTP client, by contrast, propagates and aborts
the search after that one query. -/
theorem claim_C10_amended {α : Type} [LinearOrderedField α] [FloorRing α]
    (q : SeismicCatalog α) (mag delta maxDelta : α) :
    (∀ (s : ℕ) (fs0 fs : List Feature),
        q (mag - delta) (mag + delta) 3 = QueryResult.resp s fs0 → s ≠ 200 →
        delta + 3/10 ≤ maxDelta →
        q (mag - (delta + 3/10)) (mag + (delta + 3/10)) 3 = QueryResult.resp 200 fs →
        fs ≠ [] →
        get_earthquake_examples q mag delta maxDelta =
          ⟨Except.ok (fs.map featureToExample), 2⟩)
    ∧ (q (mag - delta) (mag + delta) 3 = QueryResult.raised → delta ≤ maxDelta →
        get_earthquake_examples q mag delta maxDelta = ⟨Except.error (), 1⟩) := by
  constructor
  · intro s fs0 fs hq0 hs hle hq1 hfs
    have hcast1 : delta + ((1 : ℕ) : α) * (3/10 : α) = delta + 3/10 := by
      push_cast
      ring
    have hle' : delta + ((1 : ℕ) : α) * (3/10 : α) ≤ maxDelta := by
      rwa [hcast1]
    have h := geqLoop_firstHit q mag (3/10) maxDelta 1 delta _
      (fuel_sufficient delta maxDelta 1 hle')
      (fun j hj => by
        have hj0 : j = 0 := by omega
        subst hj0
        simp only [Nat.cast_zero, zero_mul, add_zero, hq0, notHit]
        exact Or.inl hs)
      hle' (by norm_num) fs (by rwa [hcast1]) hfs
    exact h
  · intro hq hle
    exact geqLoop_raised q mag (3/10) maxDelta delta _
      (fuel_sufficient delta maxDelta 0 (by simpa using hle)) hle hq

/-- Witness for the amended C10, instantiated at `qHttpFirst`: the 404 on
the first window is skipped and the second window's event is returned
after two queries. -/
theorem claim_C10_amended_witness :
    get_earthquake_examples qHttpFirst (5 : ℚ) (3/10) 2 =
      ⟨Except.ok ([f0].map featureToExample), 2⟩ :=
  (claim_C10_amended qHttpFirst 5 (3/10) 2).1 404 [] [f0]
    (by norm_num [qHttpFirst]) (by norm_num) (by norm_num)
    (by norm_num [qHttpFirst]) (by simp)

/-- C8: for positive energy, `energy_to_magnitude` returns
`0.67 · log10(energy) − 5.87`; for energy ≤ 0 it fails with the math
domain error; and on positive energies the returned magnitude is strictly
monotone in the energy. -/
theorem claim_C8 :
    (∀ e : ℝ, 0 < e →
        energy_to_magnitude e = Except.ok (0.67 * Real.logb 10 e - 5.87))
    ∧ (∀ e : ℝ, e ≤ 0 → energy_to_magnitude e = Except.error ())
    ∧ (∀ e₁ e₂ m₁ m₂ : ℝ, 0 < e₁ → e₁ < e₂ →
        energy_to_magnitude e₁ = Except.ok m₁ →
        energy_to_magnitude e₂ = Except.ok m₂ → m₁ < m₂) := by
  have hok : ∀ e : ℝ, 0 < e →
      energy_to_magnitude e = Except.ok (0.67 * Real.logb 10 e - 5.87) := by
    intro e he
    rw [energy_to_magnitude, if_pos he]
  refine ⟨hok, ?_, ?_⟩
  · intro e he
    rw [energy_to_magnitude, if_neg (not_lt.mpr he)]
  · intro e₁ e₂ m₁ m₂ h₁ h₁₂ hm₁ hm₂
    rw [hok e₁ h₁] at hm₁
    rw [hok e₂ (lt_trans h₁ h₁₂)] at hm₂
    have hmm₁ : m₁ = 0.67 * Real.logb 10 e₁ - 5.87 := by
      simpa using hm₁.symm
    have hmm₂ : m₂ = 0.67 * Real.logb 10 e₂ - 5.87 := by
      simpa using hm₂.symm
    have hlog : Real.logb 10 e₁ < Real.logb 10 e₂ :=
      Real.logb_lt_logb (by norm_num) h₁ h₁₂
    rw [hmm₁, hmm₂]
    linarith

/-- Witness for C8 at energies 10, 100 and -1. -/
theorem claim_C8_witness :
    energy_to_magnitude (100 : ℝ) = Except.ok (0.67 * Real.logb 10 100 - 5.87)
    ∧ energy_to_magnitude (-1 : ℝ) = Except.error ()
    ∧ (0.67 * Real.logb 10 10 - 5.87 : ℝ) < 0.67 * Real.logb 10 100 - 5.87 :=
  ⟨claim_C8.1 100 (by norm_num),
   claim_C8.2.1 (-1) (by norm_num),
   claim_C8.2.2 10 100 _ _ (by norm_num) (by norm_num)
     (claim_C8.1 10 (by norm_num)) (claim_C8.1 100 (by norm_num))⟩

/-- C9: the kinetic impact energy of a uniform sphere (mass
`(4/3)·π·(d/2)³·ρ`, velocity converted from km/s to m/s, energy
`½·m·v²`) is strictly monotonically increasing in each of diameter,
velocity and density separately, on positive inputs. -/
theorem claim_C9 :
    (∀ d₁ d₂ v ρ : ℝ, 0 < d₁ → d₁ < d₂ → 0 < v → 0 < ρ →
        impact_energy_joules d₁ v ρ < impact_energy_joules d₂ v ρ)
    ∧ (∀ d v₁ v₂ ρ : ℝ, 0 < d → 0 < v₁ → v₁ < v₂ → 0 < ρ →
        impact_energy_joules d v₁ ρ < impact_energy_joules d v₂ ρ)
    ∧ (∀ d v ρ₁ ρ₂ : ℝ, 0 < d → 0 < v → 0 < ρ₁ → ρ₁ < ρ₂ →
        impact_energy_joules d v ρ₁ < impact_energy_joules d v ρ₂) := by
  have hpi := Real.pi_pos
  refine ⟨?_, ?_, ?_⟩
  · intro d₁ d₂ v ρ h₁ h₁₂ hv hρ
    rw [impact_energy_joules_eq, impact_energy_joules_eq]
    gcongr
  · intro d v₁ v₂ ρ hd h₁ h₁₂ hρ
    rw [impact_energy_joules_eq, impact_energy_joules_eq]
    gcongr
  · intro d v ρ₁ ρ₂ hd hv h₁ h₁₂
    rw [impact_energy_joules_eq, impact_energy_joules_eq]
    gcongr

/-- Witness for C9 at concrete positive inputs. -/
theorem claim_C9_witness :
    impact_energy_joules 1 1 1 < impact_energy_joules 2 1 1
    ∧ impact_energy_joules 1 1 1 < impact_energy_joules 1 2 1
    ∧ impact_energy_joules 1 1 1 < impact_energy_joules 1 1 2 :=
  ⟨claim_C9.1 1 2 1 1 (by norm_num) (by norm_num) (by norm_num) (by norm_num),
   claim_C9.2.1 1 1 2 1 (by norm_num) (by norm_num) (by norm_num) (by norm_num),
   claim_C9.2.2 1 1 1 2 (by norm_num) (by norm_num) (by norm_num) (by norm_num)⟩

lemma process_ok_elim (q : SeismicCatalog ℝ) (neo : RawNeo)
    (r : HazardousAsteroidRecord) (h : process_asteroid q neo = Except.ok r) :
    ∃ E mw exs, derivedTriple q neo = Except.ok (E, mw, exs) ∧
      r = mkRecord neo E mw exs := by
  cases hd : derivedTriple q neo with
  | error e =>
    rw [process_asteroid, hd] at h
    exact absurd h (by simp)
  | ok t =>
    obtain ⟨E, mw, exs⟩ := t
    rw [process_asteroid, hd] at h
    exact ⟨E, mw, exs, rfl, by simpa using h.symm⟩

lemma derivedTriple_of_not_guard (q : SeismicCatalog ℝ) (neo : RawNeo)
    (h : ¬ energyGuard neo) :
    derivedTriple q neo = Except.ok (none, none, none) := by
  cases happ : neo.close_approach_data.head? with
  | none => simp [derivedTriple, happ]
  | some c =>
    simp only [derivedTriple, happ, Option.map_some']
    rw [if_neg]
    rintro ⟨hv, hd⟩
    exact h ⟨⟨c, happ, hv⟩, hd⟩

lemma iej_pos (d v : ℝ) (hd : 0 < d) (hv : v ≠ 0) :
    0 < impact_energy_joules d v 3000 := by
  rw [impact_energy_joules_eq]
  have hv2 : 0 < v ^ 2 := lt_of_le_of_ne (sq_nonneg v) (Ne.symm (pow_ne_zero 2 hv))
  have hpi := Real.pi_pos
  positivity

lemma iej_neg (d v : ℝ) (hd : d < 0) (hv : v ≠ 0) :
    impact_energy_joules d v 3000 < 0 := by
  have hv2 : 0 < v ^ 2 := lt_of_le_of_ne (sq_nonneg v) (Ne.symm (pow_ne_zero 2 hv))
  have hd3 : d ^ 3 < 0 := Odd.pow_neg ⟨1, by norm_num⟩ hd
  have hmix : d ^ 3 * (Real.pi * v ^ 2) < 0 :=
    mul_neg_of_neg_of_pos hd3 (mul_pos Real.pi_pos hv2)
  calc impact_energy_joules d v 3000
      = 250000000 * (d ^ 3 * (Real.pi * v ^ 2)) := by
        rw [impact_energy_joules_eq]
        ring
    _ < 0 := by nlinarith

/-- Any raw record with a close-approach entry, nonzero velocity and
strictly negative diameter drives `process_asteroid` into the math domain
error of `energy_to_magnitude`: the computed energy is negative. -/
lemma process_error_of_neg_diameter (q : SeismicCatalog ℝ) (neo : RawNeo)
    (c : CloseApproach) (happ : neo.close_approach_data.head? = some c)
    (hv : c.velocity_km_s ≠ 0) (hd : neo.estimated_diameter_max < 0) :
    process_asteroid q neo = Except.error PError.domain := by
  have hdne : neo.estimated_diameter_max ≠ 0 := ne_of_lt hd
  have hE : impact_energy_joules (neo.estimated_diameter_max : ℝ)
      (c.velocity_km_s : ℝ) 3000 < 0 :=
    iej_neg _ _ (by exact_mod_cast hd) (by exact_mod_cast hv)
  have hetm : energy_to_magnitude (impact_energy_joules
      (neo.estimated_diameter_max : ℝ) (c.velocity_km_s : ℝ) 3000) =
      Except.error () := by
    rw [energy_to_magnitude, if_neg (not_lt.mpr hE.le)]
  have hdt : derivedTriple q neo = Except.error PError.domain := by
    simp only [derivedTriple, happ, Option.map_some']
    rw [if_pos ⟨hv, hdne⟩, hetm]
  rw [process_asteroid, hdt]

lemma geqLoop_result_ok {α : Type} [LinearOrderedField α] (q : SeismicCatalog α)
    (mag step maxDelta : α) (h : ∀ (a b : α) (n : ℕ), q a b n ≠ QueryResult.raised) :
    ∀ (fuel : ℕ) (delta : α),
      ∃ l, (geqLoop q mag step maxDelta delta fuel).result = Except.ok l := by
  intro fuel
  induction fuel with
  | zero =>
    intro delta
    rw [geqLoop]
    exact ⟨[noMatchSentinel], by split <;> rfl⟩
  | succ n ih =>
    intro delta
    rw [geqLoop]
    split
    · cases hq : q (mag - delta) (mag + delta) 3 with
      | raised => exact absurd hq (h _ _ _)
      | resp s fs =>
        simp only [hq]
        split
        · exact ⟨fs.map featureToExample, rfl⟩
        · exact ih (delta + step)
    · exact ⟨[noMatchSentinel], rfl⟩

lemma get_earthquake_examples_ok {α : Type} [LinearOrderedField α] [FloorRing α]
    (q : SeismicCatalog α) (mag delta maxDelta : α)
    (h : ∀ (a b : α) (n : ℕ), q a b n ≠ QueryResult.raised) :
    ∃ l, (get_earthquake_examples q mag delta maxDelta).result = Except.ok l :=
  geqLoop_result_ok q mag (3/10) maxDelta h _ delta

/-- C5: for every record produced by `process_asteroid`, the
`potential_impact` flag is true iff the miss distance is known (non-null)
and at most `EARTH_RADIUS_KM = 6371.0`, boundary inclusive
(line 108). -/
theorem claim_C5 (q : SeismicCatalog ℝ) (neo : RawNeo)
    (r : HazardousAsteroidRecord) (h : process_asteroid q neo = Except.ok r) :
    r.potential_impact = true ↔
      ∃ m : ℚ, r.miss_distance_km = some m ∧ m ≤ EARTH_RADIUS_KM := by
  obtain ⟨E, mw, exs, hd, rfl⟩ := process_ok_elim q neo r h
  cases happ : neo.close_approach_data.head? with
  | none => simp [mkRecord, happ]
  | some c => simp [mkRecord, happ]

/-- Witness for C5: miss distance 6371.0 km gives `potential_impact =
true` (boundary inclusive); 6371.01 km gives `false`. -/
theorem claim_C5_witness :
    (mkRecord neoMiss6371 none none none).potential_impact = true
    ∧ (mkRecord neoMissOver none none none).potential_impact = false := by
  have hp1 : process_asteroid trivialQ neoMiss6371 =
      Except.ok (mkRecord neoMiss6371 none none none) := by
    have hdt : derivedTriple trivialQ neoMiss6371 = Except.ok (none, none, none) := by
      simp [derivedTriple, neoMiss6371]
    rw [process_asteroid, hdt]
  have hp2 : process_asteroid trivialQ neoMissOver =
      Except.ok (mkRecord neoMissOver none none none) := by
    have hdt : derivedTriple trivialQ neoMissOver = Except.ok (none, none, none) := by
      simp [derivedTriple, neoMissOver]
    rw [process_asteroid, hdt]
  constructor
  · exact (claim_C5 trivialQ neoMiss6371 _ hp1).mpr
      ⟨6371, by simp [mkRecord, neoMiss6371], by norm_num [EARTH_RADIUS_KM]⟩
  · have h := claim_C5 trivialQ neoMissOver _ hp2
    rw [Bool.eq_false_iff]
    intro htrue
    obtain ⟨m, hm, hle⟩ := h.mp htrue
    simp [mkRecord, neoMissOver] at hm
    rw [← hm] at hle
    norm_num [EARTH_RADIUS_KM] at hle

/-- C6 as stated is false: the guard of line 110 is Python truthiness
(nonzero), not positivity, so a record whose reported diameter is negative
(with nonzero velocity) passes the guard, gets a negative kinetic energy,
and drives `energy_to_magnitude` into its math domain error - the
"unreachable" branch is reached. -/
theorem claim_C6_counterexample :
    process_asteroid trivialQ neoNegDiameter = Except.error PError.domain :=
  process_error_of_neg_diameter trivialQ neoNegDiameter
    ⟨some "2029-04-13", 1000, 1⟩ rfl (by norm_num) (by norm_num [neoNegDiameter])

/-- C6 amended: energy and magnitude-equivalent are computed exactly when
the truthiness guard holds (velocity present and nonzero, diameter
nonzero); and for every record whose diameter is nonnegative the math
domain error is unreachable (the computed energy is then strictly
positive), so `process_asteroid` never fails with the domain error. -/
theorem claim_C6_amended (q : SeismicCatalog ℝ) (neo : RawNeo)
    (hd : 0 ≤ neo.estimated_diameter_max) :
    process_asteroid q neo ≠ Except.error PError.domain
    ∧ ∀ r, process_asteroid q neo = Except.ok r →
        ((r.impact_energy_J.isSome ∧ r.impact_magnitude_Mw.isSome ∧
          r.earthquake_examples.isSome) ↔ energyGuard neo) := by
  by_cases hg : energyGuard neo
  · obtain ⟨⟨c, happ, hv⟩, hdne⟩ := hg
    have hdpos : (0 : ℝ) < (neo.estimated_diameter_max : ℝ) := by
      exact_mod_cast lt_of_le_of_ne hd (Ne.symm hdne)
    have hE : 0 < impact_energy_joules (neo.estimated_diameter_max : ℝ)
        (c.velocity_km_s : ℝ) 3000 :=
      iej_pos _ _ hdpos (by exact_mod_cast hv)
    have hmw : energy_to_magnitude (impact_energy_joules
        (neo.estimated_diameter_max : ℝ) (c.velocity_km_s : ℝ) 3000) =
        Except.ok (0.67 * Real.logb 10 (impact_energy_joules
          (neo.estimated_diameter_max : ℝ) (c.velocity_km_s : ℝ) 3000) - 5.87) := by
      rw [energy_to_magnitude, if_pos hE]
    have hdt : derivedTriple q neo =
        match (get_earthquake_examples q (0.67 * Real.logb 10 (impact_energy_joules
          (neo.estimated_diameter_max : ℝ) (c.velocity_km_s : ℝ) 3000) - 5.87)
          (3/10) 2).result with
        | Except.error _ => Except.error PError.net
        | Except.ok exs =>
          Except.ok (some (impact_energy_joules (neo.estimated_diameter_max : ℝ)
            (c.velocity_km_s : ℝ) 3000),
            some (0.67 * Real.logb 10 (impact_energy_joules
              (neo.estimated_diameter_max : ℝ) (c.velocity_km_s : ℝ) 3000) - 5.87),
            some exs) := by
      simp only [derivedTriple, happ, Option.map_some']
      rw [if_pos ⟨hv, hdne⟩, hmw]
    cases hgeq : (get_earthquake_examples q (0.67 * Real.logb 10 (impact_energy_joules
        (neo.estimated_diameter_max : ℝ) (c.velocity_km_s : ℝ) 3000) - 5.87)
        (3/10) 2).result with
    | error u =>
      rw [hgeq] at hdt
      constructor
      · rw [process_asteroid, hdt]
        simp
      · intro r hr
        rw [process_asteroid, hdt] at hr
        exact absurd hr (by simp)
    | ok exs =>
      rw [hgeq] at hdt
      constructor
      · rw [process_asteroid, hdt]
        simp
      · intro r hr
        rw [process_asteroid, hdt] at hr
        simp only [Except.ok.injEq] at hr
        rw [← hr]
        simp only [mkRecord, Option.isSome_some]
        simp only [true_and]
        exact iff_of_true trivial ⟨⟨c, happ, hv⟩, hdne⟩
  · have hdt := derivedTriple_of_not_guard q neo hg
    constructor
    · rw [process_asteroid, hdt]
      simp
    · intro r hr
      rw [process_asteroid, hdt] at hr
      simp only [Except.ok.injEq] at hr
      rw [← hr]
      simp only [mkRecord, Option.isSome_none]
      exact iff_of_false (by simp) hg

/-- Witness for the amended C6: a nonnegative-diameter record never hits
the domain error. -/
theorem claim_C6_amended_witness :
    process_asteroid trivialQ neoMiss6371 ≠ Except.error PError.domain :=
  (claim_C6_amended trivialQ neoMiss6371 (by norm_num [neoMiss6371])).1

/-- C7 as stated is false: `process_asteroid` does not always return a
record - a record with a negative reported diameter (an abnormal value,
not a missing field) aborts with the propagated math domain error. -/
theorem claim_C7_counterexample :
    process_asteroid trivialQ neoNegDiameter2 = Except.error PError.domain :=
  process_error_of_neg_diameter trivialQ neoNegDiameter2
    ⟨none, 500, 3⟩ rfl (by norm_num) (by norm_num [neoNegDiameter2])

/-- C7 amended: missing optional source fields never abort extraction -
a record with no close-approach entries yields null date / miss distance /
velocity, `potential_impact = false`, null energy fields, and the seismic
catalog is never consulted (the result does not depend on it); missing
orbital numeric fields default to 0 and a missing epoch degrades to null;
and `process_asteroid` returns a fully populated record whenever the
diameter is nonnegative and the seismic transport does not raise (the only
abort paths are the abnormal-value domain error refuted above and a
propagated transport exception, neither caused by a missing field). -/
theorem claim_C7_amended :
    (∀ (q : SeismicCatalog ℝ) (neo : RawNeo), neo.close_approach_data = [] →
        process_asteroid q neo = Except.ok (mkRecord neo none none none)
        ∧ (mkRecord neo none none none).close_approach_date = none
        ∧ (mkRecord neo none none none).miss_distance_km = none
        ∧ (mkRecord neo none none none).velocity_km_s = none
        ∧ (mkRecord neo none none none).potential_impact = false
        ∧ (∀ q' : SeismicCatalog ℝ, process_asteroid q' neo = process_asteroid q neo))
    ∧ (∀ (q : SeismicCatalog ℝ) (neo : RawNeo) (r : HazardousAsteroidRecord),
        process_asteroid q neo = Except.ok r →
        (neo.orbital_data.semi_major_axis = none → r.a_AU = 0)
        ∧ (neo.orbital_data.eccentricity = none → r.e = 0)
        ∧ (neo.orbital_data.inclination = none → r.i_deg = 0)
        ∧ (neo.orbital_data.ascending_node_longitude = none → r.raan_deg = 0)
        ∧ (neo.orbital_data.perihelion_argument = none → r.argp_deg = 0)
        ∧ (neo.orbital_data.mean_anomaly = none → r.M_deg = 0)
        ∧ (neo.orbital_data.epoch_osculation = none → r.epoch = none))
    ∧ (∀ (q : SeismicCatalog ℝ) (neo : RawNeo),
        0 ≤ neo.estimated_diameter_max →
        (∀ (a b : ℝ) (n : ℕ), q a b n ≠ QueryResult.raised) →
        ∃ r, process_asteroid q neo = Except.ok r) := by
  have hempty : ∀ (q : SeismicCatalog ℝ) (neo : RawNeo),
      neo.close_approach_data = [] →
      process_asteroid q neo = Except.ok (mkRecord neo none none none) := by
    intro q neo h
    have hng : ¬ energyGuard neo := by
      rintro ⟨⟨c, happ, _⟩, _⟩
      rw [h] at happ
      exact absurd happ (by simp)
    rw [process_asteroid, derivedTriple_of_not_guard q neo hng]
  refine ⟨?_, ?_, ?_⟩
  · intro q neo h
    refine ⟨hempty q neo h, ?_, ?_, ?_, ?_, fun q' => ?_⟩
    · simp [mkRecord, h]
    · simp [mkRecord, h]
    · simp [mkRecord, h]
    · simp [mkRecord, h]
    · rw [hempty q neo h, hempty q' neo h]
  · intro q neo r h
    obtain ⟨E, mw, exs, hd, rfl⟩ := process_ok_elim q neo r h
    refine ⟨?_, ?_, ?_, ?_, ?_, ?_, ?_⟩ <;>
      (intro hnone; simp [mkRecord, hnone])
  · intro q neo hd hq
    by_cases hg : energyGuard neo
    · obtain ⟨⟨c, happ, hv⟩, hdne⟩ := hg
      have hdpos : (0 : ℝ) < (neo.estimated_diameter_max : ℝ) := by
        exact_mod_cast lt_of_le_of_ne hd (Ne.symm hdne)
      have hE : 0 < impact_energy_joules (neo.estimated_diameter_max : ℝ)
          (c.velocity_km_s : ℝ) 3000 :=
        iej_pos _ _ hdpos (by exact_mod_cast hv)
      have hmw : energy_to_magnitude (impact_energy_joules
          (neo.estimated_diameter_max : ℝ) (c.velocity_km_s : ℝ) 3000) =
          Except.ok (0.67 * Real.logb 10 (impact_energy_joules
            (neo.estimated_diameter_max : ℝ) (c.velocity_km_s : ℝ) 3000) - 5.87) := by
        rw [energy_to_magnitude, if_pos hE]
      obtain ⟨l, hl⟩ := get_earthquake_examples_ok q
        (0.67 * Real.logb 10 (impact_energy_joules (neo.estimated_diameter_max : ℝ)
          (c.velocity_km_s : ℝ) 3000) - 5.87) (3/10) 2 hq
      have hdt : derivedTriple q neo = Except.ok
          (some (impact_energy_joules (neo.estimated_diameter_max : ℝ)
            (c.velocity_km_s : ℝ) 3000),
           some (0.67 * Real.logb 10 (impact_energy_joules
             (neo.estimated_diameter_max : ℝ) (c.velocity_km_s : ℝ) 3000) - 5.87),
           some l) := by
        simp only [derivedTriple, happ, Option.map_some']
        rw [if_pos ⟨hv, hdne⟩, hmw]
        simp only [hl]
      exact ⟨_, by rw [process_asteroid, hdt]⟩
    · exact ⟨_, by rw [process_asteroid, derivedTriple_of_not_guard q neo hg]⟩

/-- Witness for the amended C7 at a record with no close-approach
entries. -/
theorem claim_C7_amended_witness :
    process_asteroid trivialQ neoNoApproach =
      Except.ok (mkRecord neoNoApproach none none none)
    ∧ (mkRecord neoNoApproach none none none).miss_distance_km = none
    ∧ (mkRecord neoNoApproach none none none).potential_impact = false :=
  ⟨(claim_C7_amended.1 trivialQ neoNoApproach rfl).1,
   (claim_C7_amended.1 trivialQ neoNoApproach rfl).2.2.1,
   (claim_C7_amended.1 trivialQ neoNoApproach rfl).2.2.2.2.1⟩

lemma fetchAux_failure (cat : NeoCatalog) (q : SeismicCatalog ℝ) :
    ∀ (k start n : ℕ), k < n →
      (∀ i, i < k → pageOk q cat (start + i)) →
      cat (start + k) = PageResult.failure →
      fetchAux cat q start n =
        ⟨pagesRecords q cat start k, FetchStop.pageFailure (start + k), k + 1⟩ := by
  intro k
  induction k with
  | zero =>
    intro start n hn hok hfail
    obtain ⟨m, rfl⟩ : ∃ m, n = m + 1 := ⟨n - 1, by omega⟩
    rw [fetchAux]
    simp only [Nat.add_zero] at hfail
    rw [hfail]
    simp [pagesRecords]
  | succ k ih =>
    intro start n hn hok hfail
    obtain ⟨m, rfl⟩ : ∃ m, n = m + 1 := ⟨n - 1, by omega⟩
    obtain ⟨ns, p, t, hcat, hproc⟩ := hok 0 (Nat.succ_pos k)
    simp only [Nat.add_zero] at hcat
    obtain ⟨l, hl⟩ : ∃ l, processNeos q ns = (l, none) :=
      ⟨(processNeos q ns).1, by rw [← hproc]⟩
    have hrec := ih (start + 1) m (by omega)
      (fun i hi => by
        have := hok (i + 1) (by omega)
        rwa [show start + (i + 1) = start + 1 + i by omega] at this)
      (by rwa [show start + 1 + k = start + (k + 1) by omega])
    have hpage : pageRecords q cat start = l := by
      rw [pageRecords]
      simp only [hcat, hl]
    rw [fetchAux]
    simp only [hcat, hl, hrec]
    rw [show start + 1 + k = start + (k + 1) by omega]
    simp [pagesRecords, hpage]

lemma fetchAux_complete (cat : NeoCatalog) (q : SeismicCatalog ℝ) :
    ∀ (n start : ℕ),
      (∀ i, i < n → pageOk q cat (start + i)) →
      fetchAux cat q start n =
        ⟨pagesRecords q cat start n, FetchStop.done, n⟩ := by
  intro n
  induction n with
  | zero =>
    intro start _
    rw [fetchAux]
    simp [pagesRecords]
  | succ m ih =>
    intro start hok
    obtain ⟨ns, p, t, hcat, hproc⟩ := hok 0 (Nat.succ_pos m)
    simp only [Nat.add_zero] at hcat
    obtain ⟨l, hl⟩ : ∃ l, processNeos q ns = (l, none) :=
      ⟨(processNeos q ns).1, by rw [← hproc]⟩
    have hrec := ih (start + 1)
      (fun i hi => by
        have := hok (i + 1) (by omega)
        rwa [show start + (i + 1) = start + 1 + i by omega] at this)
    have hpage : pageRecords q cat start = l := by
      rw [pageRecords]
      simp only [hcat, hl]
    rw [fetchAux]
    simp only [hcat, hl, hrec]
    simp [pagesRecords, hpage]

/-- C1: if pages `0 … k-1` all succeed (and their hazardous records all
process cleanly) and the fetch of page `k < max_pages` fails
(`raise_for_status` raises), pagination stops immediately: exactly `k + 1`
fetches are issued (no retry of the failed page), and the accumulated
result set holds exactly the hazardous records extracted from pages
`0 … k-1`, in encounter order. -/
theorem claim_C1 (cat : NeoCatalog) (q : SeismicCatalog ℝ) (pages k : ℕ)
    (hk : k < pages) (hok : ∀ i, i < k → pageOk q cat i)
    (hfail : cat k = PageResult.failure) :
    fetch_hazardous_neos cat q pages =
      ⟨pagesRecords q cat 0 k, FetchStop.pageFailure k, k + 1⟩ := by
  have h := fetchAux_failure cat q k 0 pages hk
    (fun i hi => by simpa using hok i hi) (by simpa using hfail)
  simpa using h

/-- Witness for C1: with `catFail`, requesting 2 pages stops at the
failing page 1 after exactly 2 fetches, keeping page 0's records. -/
theorem claim_C1_witness :
    fetch_hazardous_neos catFail trivialQ 2 =
      ⟨pagesRecords trivialQ catFail 0 1, FetchStop.pageFailure 1, 2⟩ :=
  claim_C1 catFail trivialQ 2 1 (by omega)
    (fun i hi => ⟨[], 0, 5, by
      have : i = 0 := by omega
      rw [this]
      rfl, rfl⟩)
    rfl

/-- C4 as stated is false: `fetch_hazardous_neos` never reads the
response's page metadata.  Against a catalog whose pages 0 and 1 both
report `total_pages = 2`, a run with `pages = 3` still issues a third
fetch (of page 2) instead of stopping after page 1. -/
theorem claim_C4_counterexample :
    (fetch_hazardous_neos cat2 trivialQ 3).fetches = 3 := by
  have h := fetchAux_complete cat2 trivialQ 3 0
    (fun i _ => ⟨[], 0 + i, 2, rfl, rfl⟩)
  show (fetchAux cat2 trivialQ 0 3).fetches = 3
  rw [h]

/-- C4 amended: the loop of lines 30-38 consults only the `range(pages)`
bound, ignoring the catalog's reported current page / total pages: when
every requested page succeeds, exactly `pages` fetches occur.  In
particular, with `max_pages = 2` over a 2-page catalog exactly 2 fetches
occur and no third fetch is attempted - but only because of the caller's
page cap, not the catalog's last-page signal. -/
theorem claim_C4_amended (cat : NeoCatalog) (q : SeismicCatalog ℝ) (pages : ℕ)
    (hok : ∀ i, i < pages → pageOk q cat i) :
    fetch_hazardous_neos cat q pages =
      ⟨pagesRecords q cat 0 pages, FetchStop.done, pages⟩ := by
  have h := fetchAux_complete cat q pages 0 (fun i hi => by simpa using hok i hi)
  simpa using h

/-- Witness for the amended C4: 2 requested pages of `cat2` give exactly
2 fetches and a completed run. -/
theorem claim_C4_amended_witness :
    fetch_hazardous_neos cat2 trivialQ 2 =
      ⟨pagesRecords trivialQ cat2 0 2, FetchStop.done, 2⟩ :=
  claim_C4_amended cat2 trivialQ 2 (fun i _ => ⟨[], i, 2, rfl, rfl⟩)

end Neo
